import Mathlib

/-!
Verification development for the CourtListener MCP repository
(`src/server.py`, `src/client.py`).

The server side embeds `make_api_request` (authenticated GET with status
classification and exponential-backoff retry) and `search_with_pagination`
(cursor-based page aggregation).  The client side embeds
`convert_to_llm_tool`, the argument-parsing loop of `call_llm`, and the
schema-filtering / abort logic of `run`.

Python strings are modelled as `List Char`; machine behaviour that the code
observes through the `requests` library (timeouts, connection errors, HTTP
status codes, JSON decoding of the body) is supplied by a transport oracle.
Exceptions are modelled explicitly with `Except`: an `Except.error` escaping
a top-level definition corresponds to a Python exception crossing that
function's boundary.
-/

/-- The error payloads that `make_api_request` returns as data
(`{"error": ...}` dictionaries).  `timedOut` / `requestFailed` carry the
attempt count interpolated into the message
(`"... after {retries} attempts"`). -/
inductive ErrMsg where
  | rateLimited
  | unauthenticated
  | notFound
  | timedOut (attempts : Nat)
  | requestFailed (attempts : Nat) (msg : String)
  | maxRetriesExceeded
  deriving DecidableEq, Repr

/-- A decoded JSON response body, restricted to the keys the code reads:
`"error"` (checked by `search_with_pagination`), `"results"` and `"next"`
(read via `.get`).  `next = none` models both an absent key and JSON
`null` (Python's `result.get('next')` returns `None` for both);
`next = some []` models a present empty string.  Result items are opaque
and modelled as `Nat`. -/
structure Body where
  errorMsg : Option ErrMsg
  results : Option (List Nat)
  next : Option (List Char)
  deriving DecidableEq, Repr

/-- The `{"error": msg}` dictionary built by `make_api_request`. -/
def errBody (e : ErrMsg) : Body :=
  ⟨some e, none, none⟩

/-- Whether the raw response body decodes as JSON. -/
inductive TransportBody where
  | json (b : Body)
  | malformed
  deriving DecidableEq, Repr

/-- What the transport layer does on one attempt of
`requests.get(url, ..., timeout=60)` followed by `response.json()`:
a timeout, another network-level request exception, or an HTTP response
with a status code and a body that either decodes as JSON or not. -/
inductive Transport where
  | timeout
  | connError (msg : String)
  | response (status : Nat) (body : TransportBody)
  deriving DecidableEq, Repr

/-- A Python exception as classified by the `except` clauses of
`make_api_request`: `requests.Timeout`, any other
`requests.RequestException` (this includes `HTTPError` from
`raise_for_status` and, for `requests >= 2.27`, the `JSONDecodeError`
raised by `response.json()`), or an exception outside the
`RequestException` hierarchy, which no handler catches. -/
inductive PyExc where
  | timeoutExc
  | requestExc (msg : String)
  | otherExc (msg : String)
  deriving DecidableEq, Repr

/-- The `try:` block of one loop iteration of `make_api_request`
(src/server.py lines 36-52): perform the GET, return the terminal
`{"error": ...}` dictionaries for 429 / 401 / 404, call
`raise_for_status()` (raises `HTTPError` for 400 <= status < 600), and
otherwise return `response.json()` (raising on a malformed body). -/
def tryBlock : Transport → Except PyExc Body
  | .timeout => .error .timeoutExc
  | .connError m => .error (.requestExc m)
  | .response status body =>
    if status = 429 then .ok (errBody .rateLimited)
    else if status = 401 then .ok (errBody .unauthenticated)
    else if status = 404 then .ok (errBody .notFound)
    else if 400 ≤ status ∧ status < 600 then
      .error (.requestExc "HTTPError")
    else
      match body with
      | .json b => .ok b
      | .malformed => .error (.requestExc "JSONDecodeError")

/-- The `for attempt in range(retries)` loop of `make_api_request`
(src/server.py lines 35-65), compiled with explicit fuel
(`fuel = retries - attempt` at every call).  The accumulator `sleeps`
records each `time.sleep(2 ** attempt)` in order.  The fuel-zero branch
is the fall-through after the loop (`return {"error": "Maximum retries
exceeded"}`), reachable only when `retries = 0`.  An uncaught exception
(`PyExc.otherExc`) propagates as `Except.error`. -/
def apiLoop (t : Nat → Transport) (retries : Nat) :
    Nat → Nat → List Nat → Except PyExc (List Nat × Body)
  | 0, _, sleeps => .ok (sleeps, errBody .maxRetriesExceeded)
  | fuel + 1, attempt, sleeps =>
    match tryBlock (t attempt) with
    | .ok b => .ok (sleeps, b)
    | .error .timeoutExc =>
      if attempt < retries - 1 then
        apiLoop t retries fuel (attempt + 1) (sleeps ++ [2 ^ attempt])
      else
        .ok (sleeps, errBody (.timedOut retries))
    | .error (.requestExc m) =>
      if attempt < retries - 1 then
        apiLoop t retries fuel (attempt + 1) (sleeps ++ [2 ^ attempt])
      else
        .ok (sleeps, errBody (.requestFailed retries m))
    | .error (.otherExc m) => .error (.otherExc m)

/-- `make_api_request(endpoint, params, retries)` (src/server.py lines
22-65), with the transport oracle `t` giving the outcome of each attempt.
Returns the recorded backoff sleeps together with the returned dictionary;
an `Except.error` would be an exception escaping the function. -/
def make_api_request (t : Nat → Transport) (retries : Nat) :
    Except PyExc (List Nat × Body) :=
  apiLoop t retries retries 0 []

/-- Attempt outcomes that the claims call retryable: a timeout or another
network-level request exception raised by `requests.get`. -/
def retryableNet : Transport → Bool
  | .timeout => true
  | .connError _ => true
  | .response _ _ => false

/-- The `except` clauses catch exactly `requests.Timeout` and
`requests.RequestException`. -/
def caughtErr : Except PyExc Body → Bool
  | .error .timeoutExc => true
  | .error (.requestExc _) => true
  | _ => false

/-- The error dictionary produced when the final attempt fails with the
given caught exception. -/
def finalErr (e : Except PyExc Body) (n : Nat) : ErrMsg :=
  match e with
  | .error .timeoutExc => .timedOut n
  | .error (.requestExc m) => .requestFailed n m
  | _ => .maxRetriesExceeded

/-- `pat` stands at the front of the second list
(Python `s.startswith(pat)`). -/
def leadsWith : List Char → List Char → Bool
  | [], _ => true
  | _ :: _, [] => false
  | p :: ps, c :: cs => p == c && leadsWith ps cs

/-- Python substring containment `pat in s` (for these nonempty `pat`). -/
def containsSeq (pat : List Char) : List Char → Bool
  | [] => leadsWith pat []
  | c :: rest => leadsWith pat (c :: rest) || containsSeq pat rest

/-- Split `s` at the first occurrence of `pat`: `some (pre, post)` with
`s = pre ++ pat ++ post` at the leftmost match, `none` when `pat` does
not occur. -/
def chop (pat : List Char) : List Char → Option (List Char × List Char)
  | [] => if leadsWith pat [] then some ([], []) else none
  | c :: rest =>
    if leadsWith pat (c :: rest) then some ([], (c :: rest).drop pat.length)
    else
      match chop pat rest with
      | none => none
      | some (pre, post) => some (c :: pre, post)

/-- Fuelled worker for Python `str.split`. -/
def pySplitF (pat : List Char) : Nat → List Char → List (List Char)
  | 0, s => [s]
  | fuel + 1, s =>
    match chop pat s with
    | none => [s]
    | some (pre, post) => pre :: pySplitF pat fuel post

/-- Python `s.split(sep)` for nonempty `sep`: fuel `s.length + 1` suffices
because every recursive step consumes at least `sep.length ≥ 1`
characters.  (Python raises on an empty separator; the separators used
here, `'cursor='` and `'&'`, are nonempty.) -/
def pySplit (pat s : List Char) : List (List Char) :=
  pySplitF pat (s.length + 1) s

/-- The literal `'cursor='`. -/
def cursorPat : List Char := ['c', 'u', 'r', 's', 'o', 'r', '=']

/-- Cursor extraction from a `next` URL (src/server.py lines 516-519):
`next_url.split('cursor=')[1].split('&')[0]` guarded by
`'cursor=' in next_url`; `none` is the `else: break` arm. -/
def extractCursor (nu : List Char) : Option (List Char) :=
  if containsSeq cursorPat nu then
    some ((pySplit ['&'] ((pySplit cursorPat nu).getD 1 [])).getD 0 [])
  else none

/-- Everything after the first occurrence of `pat` (empty when `pat` does
not occur). -/
def afterSeq (pat : List Char) : List Char → List Char
  | [] => []
  | c :: rest =>
    if leadsWith pat (c :: rest) then (c :: rest).drop pat.length
    else afterSeq pat rest

/-- Everything before the first `'&'` (the whole list when none occurs). -/
def upToAmp : List Char → List Char
  | [] => []
  | c :: rest => if c == '&' then [] else c :: upToAmp rest

/-- Modelled from the spec: "PageCursor: opaque string extracted verbatim
from the substring of a `next` link between `cursor=` and the following
`&` (or end of string)".  This is the comparison definition for the
cursor-extraction claim, written from the spec's words rather than from
the code. -/
def specCursor (nu : List Char) : Option (List Char) :=
  if containsSeq cursorPat nu then some (upToAmp (afterSeq cursorPat nu))
  else none

/-- What `search_with_pagination` returns, minus the per-item text
formatting (out of scope): the `"error"` string propagated from
`make_api_request`, the invalid-`search_type` message, the
`"No {search_type} found"` message, or the accumulated results together
with the page count interpolated into `"Found {n} ... across {p} pages"`. -/
inductive PagReturn where
  | invalidType
  | apiError (e : ErrMsg)
  | noResults
  | found (results : List Nat) (pagesFetched : Nat)
  deriving DecidableEq, Repr

/-- The code after the loop: `if not all_results: return "No ... found"`,
otherwise report the accumulated results and page count. -/
def finishPag (acc : List Nat) (pagesFetched : Nat) : PagReturn :=
  if acc.isEmpty then .noResults else .found acc pagesFetched

/-- The cursor query parameter sent on a fetch: the loop head runs
`if current_cursor: params['cursor'] = current_cursor
elif 'cursor' in params: del params['cursor']`, so an empty
`current_cursor` sends no cursor at all. -/
def sentCursor (cur : List Char) : Option (List Char) :=
  if cur.isEmpty then none else some cur

/-- The transport oracle for pagination: fetch index, cursor parameter
sent, and retry-attempt index determine the transport outcome. -/
abbrev PagTransport : Type := Nat → Option (List Char) → Nat → Transport

/-- The `while pages_fetched < max_pages_int` loop of
`search_with_pagination` (src/server.py lines 493-519), compiled with
fuel = the number of remaining permitted iterations
(`max_pages_int - pages_fetched`, well-defined because `pages_fetched`
grows by one on every non-final iteration).  Arguments: fetch index (=
number of `make_api_request` calls so far), `current_cursor`,
`all_results`, `pages_fetched`, fuel.  Returns the total number of
fetches issued together with the outcome; an `Except.error` would be an
exception escaping the tool. -/
def pagLoop (t : PagTransport) (retries : Nat) :
    Nat → List Char → List Nat → Nat → Nat → Except PyExc (Nat × PagReturn)
  | fetchIdx, _, acc, pagesFetched, 0 => .ok (fetchIdx, finishPag acc pagesFetched)
  | fetchIdx, cur, acc, pagesFetched, fuel + 1 =>
    match make_api_request (t fetchIdx (sentCursor cur)) retries with
    | .error e => .error e
    | .ok (_, body) =>
      match body.errorMsg with
      | some e => .ok (fetchIdx + 1, .apiError e)
      | none =>
        match body.results with
        | none => .ok (fetchIdx + 1, finishPag acc pagesFetched)
        | some [] => .ok (fetchIdx + 1, finishPag acc pagesFetched)
        | some rs =>
          match body.next with
          | none => .ok (fetchIdx + 1, finishPag (acc ++ rs) (pagesFetched + 1))
          | some nu =>
            if nu.isEmpty then
              .ok (fetchIdx + 1, finishPag (acc ++ rs) (pagesFetched + 1))
            else
              match extractCursor nu with
              | none => .ok (fetchIdx + 1, finishPag (acc ++ rs) (pagesFetched + 1))
              | some c =>
                pagLoop t retries (fetchIdx + 1) c (acc ++ rs) (pagesFetched + 1) fuel

/-- The caller-supplied `max_pages` string as seen by
`int(max_pages)`: it parses to some integer, or raises `ValueError`. -/
inductive MaxPagesInput where
  | intStr (m : Int)
  | notInt
  deriving DecidableEq, Repr

/-- `max_pages_int = min(int(max_pages), 10)` with `ValueError` caught and
defaulted to 3 (src/server.py lines 468-471). -/
def maxPagesInt : MaxPagesInput → Int
  | .intStr m => min m 10
  | .notInt => 3

/-- `search_type in ['opinions', 'dockets', 'courts', 'people']`. -/
def validSearchType (st : List Char) : Bool :=
  st == "opinions".data || st == "dockets".data ||
    st == "courts".data || st == "people".data

/-- `search_with_pagination` (src/server.py lines 449-541), up to the
out-of-scope per-item text formatting.  The `while` condition
`pages_fetched < max_pages_int` over Python ints is compiled to the fuel
`(max_pages_int).toNat`: for a non-positive ceiling the loop body never
runs, exactly as `0 < max_pages_int` fails. -/
def search_with_pagination (st : List Char) (t : PagTransport)
    (cursor : List Char) (maxPages : MaxPagesInput) (retries : Nat) :
    Except PyExc (Nat × PagReturn) :=
  if validSearchType st then
    pagLoop t retries 0 cursor [] 0 (maxPagesInt maxPages).toNat
  else .ok (0, .invalidType)

/-- The two observations the code makes of `tool.inputSchema`: its Python
truthiness, and the value under the `"properties"` key when that key is
present. -/
structure InputSchema where
  truthyDict : Bool
  propsKey : Option (List (String × String))
  deriving DecidableEq, Repr

/-- What the fields of one `mcp` tool descriptor look like to
`convert_to_llm_tool`: Python truthiness of the object, the `name` /
`description` / `inputSchema` attributes (`none` = attribute missing,
which is what `hasattr` tests). -/
structure PyTool where
  isTruthy : Bool
  name : Option String
  description : Option String
  inputSchema : Option InputSchema
  deriving DecidableEq, Repr

/-- The schema dictionary built by `convert_to_llm_tool`
(src/client.py lines 63-73), flattened:
`{type: "function", function: {name, description,
parameters: {type: "object", properties}}}`. -/
structure ToolSchema where
  schemaType : String
  fname : String
  fdescription : String
  paramsType : String
  properties : List (String × String)
  deriving DecidableEq, Repr

/-- `convert_to_llm_tool` (src/client.py lines 52-74): returns `None`
(here `none`) iff the tool object is falsy or lacks a `name` or
`description` attribute; otherwise builds the schema, with `properties`
defaulting to `{}` unless `inputSchema` is present, truthy and has a
`properties` key. -/
def convert_to_llm_tool (tool : PyTool) : Option ToolSchema :=
  if !tool.isTruthy || tool.name.isNone || tool.description.isNone then
    none
  else
    let properties :=
      match tool.inputSchema with
      | none => []
      | some schema =>
        if schema.truthyDict then
          match schema.propsKey with
          | some p => p
          | none => []
        else []
    some ⟨"function", tool.name.getD "", tool.description.getD "",
      "object", properties⟩

/-- The JSON-encoded argument string of one model tool call, as seen by
`json.loads`: it decodes to an argument mapping, or raises
`json.JSONDecodeError`. -/
inductive ArgPayload where
  | decodes (args : List (String × String))
  | fails
  deriving DecidableEq, Repr

/-- One entry of `response_message.tool_calls`. -/
structure ToolCall where
  cname : String
  arguments : ArgPayload
  deriving DecidableEq, Repr

/-- Client-side exceptions relevant here. -/
inductive ClientExc where
  | jsonDecodeError
  deriving DecidableEq, Repr

/-- `json.loads(tool_call.function.arguments)`. -/
def json_loads : ArgPayload → Except ClientExc (List (String × String))
  | .decodes a => .ok a
  | .fails => .error .jsonDecodeError

/-- One parsed `{"name": ..., "args": ...}` entry of
`functions_to_call`. -/
structure FunctionCall where
  cname : String
  args : List (String × String)
  deriving DecidableEq, Repr

/-- The argument-parsing loop of `call_llm` (src/client.py lines 40-48):
`for tool_call in response_message.tool_calls: ...
args = json.loads(tool_call.function.arguments) ...`.  There is no
`try` around `json.loads`, so a decode failure propagates as an
exception and the partially built list is discarded. -/
def call_llm : List ToolCall → Except ClientExc (List FunctionCall)
  | [] => .ok []
  | tc :: rest =>
    match json_loads tc.arguments with
    | .error e => .error e
    | .ok args =>
      match call_llm rest with
      | .error e => .error e
      | .ok tail => .ok (⟨tc.cname, args⟩ :: tail)

/-- The call's argument string decodes. -/
def parsesOk (c : ToolCall) : Bool :=
  match c.arguments with
  | .decodes _ => true
  | .fails => false

/-- The outcome of one dispatch cycle of `run` (src/client.py lines
89-113): either the early `return` when no valid tools remain, or a
model call with the retained schema list followed by the parse of the
returned tool calls. -/
inductive RunOutcome where
  | abortedNoTools
  | dispatched (functions : List ToolSchema)
      (parsed : Except ClientExc (List FunctionCall))
  deriving Repr

/-- The dispatch cycle of `run`: convert every listed tool, keep the
truthy conversions in source order, abort when none remain
(`if not functions: ... return`), otherwise contact the model (an
oracle from the submitted schema list to the returned tool-call list)
and parse its calls. -/
def run_dispatch (tools : List PyTool)
    (model : List ToolSchema → List ToolCall) : RunOutcome :=
  let functions := tools.filterMap convert_to_llm_tool
  if functions.isEmpty then .abortedNoTools
  else .dispatched functions (call_llm (model functions))

/-- A mock source returning 3 pages of 1 result each (items 10, 20, 30),
the first two pages carrying a `next` link with a cursor, for the
end-to-end pagination scenario. -/
def scenPage : Nat → Body
  | 0 => ⟨none, some [10], some "https://x/?cursor=c1&type=o".data⟩
  | 1 => ⟨none, some [20], some "https://x/?cursor=c2&type=o".data⟩
  | 2 => ⟨none, some [30], none⟩
  | _ + 3 => ⟨none, some [], none⟩

/-- The transport of the mock source: every fetch succeeds with status
200 and the page body for its fetch index. -/
def scenTransport : PagTransport :=
  fun idx _ _ => Transport.response 200 (.json (scenPage idx))

/-- `tryBlock` only ever raises exceptions inside the
`requests.RequestException` hierarchy: nothing escapes the handlers. -/
theorem tryBlock_caught (tr : Transport) (m : String) :
    tryBlock tr ≠ .error (.otherExc m) := by
  cases tr with
  | timeout => simp [tryBlock]
  | connError s => simp [tryBlock]
  | response status body =>
    cases body <;> simp only [tryBlock] <;> split_ifs <;> simp

theorem apiLoop_isOk (t : Nat → Transport) (retries : Nat) :
    ∀ fuel attempt sleeps, ∃ v, apiLoop t retries fuel attempt sleeps = .ok v := by
  intro fuel
  induction fuel with
  | zero => intro attempt sleeps; exact ⟨_, rfl⟩
  | succ f ih =>
    intro attempt sleeps
    cases h : tryBlock (t attempt) with
    | ok b =>
      exact ⟨(sleeps, b), by simp only [apiLoop, h]⟩
    | error e =>
      cases e with
      | timeoutExc =>
        simp only [apiLoop, h]
        by_cases hlt : attempt < retries - 1
        · simp only [if_pos hlt]; exact ih _ _
        · simp only [if_neg hlt]; exact ⟨_, rfl⟩
      | requestExc m =>
        simp only [apiLoop, h]
        by_cases hlt : attempt < retries - 1
        · simp only [if_pos hlt]; exact ih _ _
        · simp only [if_neg hlt]; exact ⟨_, rfl⟩
      | otherExc m => exact absurd h (tryBlock_caught (t attempt) m)

theorem make_api_request_isOk (t : Nat → Transport) (retries : Nat) :
    ∃ v, make_api_request t retries = .ok v :=
  apiLoop_isOk t retries retries 0 []

/-- A caught attempt failure is a timeout or another request exception. -/
theorem caughtErr_cases (e : Except PyExc Body) (h : caughtErr e = true) :
    e = .error .timeoutExc ∨ ∃ m, e = .error (.requestExc m) := by
  cases e with
  | ok b => simp [caughtErr] at h
  | error ex =>
    cases ex with
    | timeoutExc => exact Or.inl rfl
    | requestExc m => exact Or.inr ⟨m, rfl⟩
    | otherExc m => simp [caughtErr] at h

/-- Shifting one backoff delay out of the schedule. -/
theorem backoff_shift (a k : Nat) :
    2 ^ a :: (List.range k).map (fun j => 2 ^ (a + 1 + j))
      = (List.range (k + 1)).map (fun j => 2 ^ (a + j)) := by
  rw [List.range_succ_eq_map, List.map_cons, List.map_map]
  refine congrArg₂ List.cons (by rw [Nat.add_zero]) ?_
  refine List.map_congr_left fun j _ => ?_
  simp only [Function.comp_apply]
  exact congrArg (2 ^ ·) (by omega)

/-- When every remaining attempt fails with a caught (retryable)
exception, the loop sleeps `2 ^ attempt` after each attempt but the last
and returns the error dictionary of the final attempt, which carries the
configured budget. -/
theorem apiLoop_exhaust (t : Nat → Transport) (retries : Nat) :
    ∀ fuel attempt sleeps, retries = attempt + fuel → 1 ≤ fuel →
      (∀ i, attempt ≤ i → i < retries → caughtErr (tryBlock (t i)) = true) →
      apiLoop t retries fuel attempt sleeps =
        .ok (sleeps ++ (List.range (fuel - 1)).map (fun j => 2 ^ (attempt + j)),
             errBody (finalErr (tryBlock (t (retries - 1))) retries)) := by
  intro fuel
  induction fuel with
  | zero => intro attempt sleeps _ h1; exact absurd h1 (by omega)
  | succ f ih =>
    intro attempt sleeps hre _ hall
    have hcaught := hall attempt (le_refl _) (by omega)
    have hstep :
        ∀ rem : ErrMsg, rem = finalErr (tryBlock (t attempt)) retries →
        (if attempt < retries - 1 then
            apiLoop t retries f (attempt + 1) (sleeps ++ [2 ^ attempt])
          else .ok (sleeps, errBody rem)) =
          .ok (sleeps ++ (List.range f).map (fun j => 2 ^ (attempt + j)),
               errBody (finalErr (tryBlock (t (retries - 1))) retries)) := by
      intro rem hrem
      cases f with
      | zero =>
        have hlt : ¬ attempt < retries - 1 := by omega
        have hlast : retries - 1 = attempt := by omega
        rw [if_neg hlt, hrem, hlast]
        simp
      | succ f' =>
        have hlt : attempt < retries - 1 := by omega
        rw [if_pos hlt,
          ih (attempt + 1) (sleeps ++ [2 ^ attempt]) (by omega) (by omega)
            (fun i h1 h2 => hall i (by omega) h2)]
        rw [List.append_assoc, List.singleton_append]
        rw [show (f' + 1) - 1 = f' from rfl, backoff_shift]
    rcases caughtErr_cases _ hcaught with h | ⟨m, h⟩
    · simp only [apiLoop, h]
      exact hstep _ (by rw [h]; rfl)
    · simp only [apiLoop, h]
      exact hstep _ (by rw [h]; rfl)

/-- C1: for every retry budget `n ≥ 1`, if every attempt fails with a
retryable error (timeout or other network-level request exception), the
executor sleeps exactly `n - 1` times with delays
`2 ^ 0, 2 ^ 1, …, 2 ^ (n - 2)` in that order, and the final result is a
`{"error": ...}` value reporting that the retries were exhausted
(`"... after {n} attempts"`), carrying the attempt count `n`. -/
theorem make_api_request_exhausts_retries (t : Nat → Transport)
    (retries : Nat) (hret : 1 ≤ retries)
    (hfail : ∀ i, i < retries → retryableNet (t i) = true) :
    ∃ e, make_api_request t retries =
        .ok ((List.range (retries - 1)).map (fun j => 2 ^ j), errBody e)
      ∧ (e = .timedOut retries ∨ ∃ m, e = .requestFailed retries m) := by
  have hall : ∀ i, 0 ≤ i → i < retries → caughtErr (tryBlock (t i)) = true := by
    intro i _ hi
    have hr := hfail i hi
    cases h : t i with
    | timeout => simp [tryBlock, caughtErr]
    | connError m => simp [tryBlock, caughtErr]
    | response s b => rw [h] at hr; simp [retryableNet] at hr
  have hmain := apiLoop_exhaust t retries retries 0 [] (by omega) hret hall
  refine ⟨finalErr (tryBlock (t (retries - 1))) retries, ?_, ?_⟩
  · rw [make_api_request, hmain]
    simp
  · have hc := hall (retries - 1) (by omega) (by omega)
    rcases caughtErr_cases _ hc with h | ⟨m, h⟩
    · rw [h]; exact Or.inl rfl
    · rw [h]; exact Or.inr ⟨m, rfl⟩

/-- Witness for C1 at budget 3 with every attempt timing out: two sleeps
of 1 and 2 time units, and the timeout error carries the count 3. -/
theorem make_api_request_exhausts_retries_witness :
    ∃ e, make_api_request (fun _ => Transport.timeout) 3 =
        .ok ([1, 2], errBody e)
      ∧ (e = .timedOut 3 ∨ ∃ m, e = .requestFailed 3 m) := by
  have hl : (List.range (3 - 1)).map (fun j => 2 ^ j) = [1, 2] := by decide
  have := make_api_request_exhausts_retries (fun _ => Transport.timeout) 3
    (by omega) (fun i _ => rfl)
  rwa [hl] at this

/-- C2: a first-attempt response with status 429, 401 or 404 produces
zero retries and zero backoff sleeps, and `make_api_request` immediately
returns the matching error value, for every retry budget that lets the
request happen at all. -/
theorem make_api_request_terminal_status (t : Nat → Transport)
    (retries : Nat) (bd : TransportBody) (hret : 1 ≤ retries) :
    (t 0 = .response 429 bd →
        make_api_request t retries = .ok ([], errBody .rateLimited))
    ∧ (t 0 = .response 401 bd →
        make_api_request t retries = .ok ([], errBody .unauthenticated))
    ∧ (t 0 = .response 404 bd →
        make_api_request t retries = .ok ([], errBody .notFound)) := by
  obtain ⟨r, rfl⟩ : ∃ r, retries = r + 1 := ⟨retries - 1, by omega⟩
  refine ⟨fun h => ?_, fun h => ?_, fun h => ?_⟩ <;>
    simp [make_api_request, apiLoop, h, tryBlock]

/-- Witness for C2 at status 429 with budget 3. -/
theorem make_api_request_terminal_status_witness :
    make_api_request (fun _ => Transport.response 429 .malformed) 3 =
      .ok ([], errBody .rateLimited) :=
  (make_api_request_terminal_status (fun _ => Transport.response 429 .malformed)
    3 .malformed (by omega)).1 rfl

/-- A first attempt answered with a 2xx status and a well-formed JSON
body returns that body with no sleeps. -/
theorem make_api_request_2xx (t : Nat → Transport) (retries s : Nat)
    (b : Body) (hret : 1 ≤ retries) (hs2 : 200 ≤ s) (hs3 : s < 300)
    (h : t 0 = .response s (.json b)) :
    make_api_request t retries = .ok ([], b) := by
  obtain ⟨r, rfl⟩ : ∃ r, retries = r + 1 := ⟨retries - 1, by omega⟩
  have htb : tryBlock (t 0) = .ok b := by
    rw [h]
    simp only [tryBlock]
    rw [if_neg (by omega), if_neg (by omega), if_neg (by omega),
      if_neg (by omega)]
  simp [make_api_request, apiLoop, htb]

/-- The pagination loop returns a value for every input: no exception
crosses it. -/
theorem pagLoop_isOk (t : PagTransport) (retries : Nat) :
    ∀ fuel fetchIdx cur acc pf,
      ∃ v, pagLoop t retries fetchIdx cur acc pf fuel = .ok v := by
  intro fuel
  induction fuel with
  | zero => intro fetchIdx cur acc pf; exact ⟨_, rfl⟩
  | succ f ih =>
    intro fetchIdx cur acc pf
    obtain ⟨⟨sl, body⟩, hmk⟩ :=
      make_api_request_isOk (t fetchIdx (sentCursor cur)) retries
    rcases body with ⟨em, res, nx⟩
    rcases em with _ | e
    · rcases res with _ | rs
      · exact ⟨_, by simp only [pagLoop, hmk]; rfl⟩
      · rcases rs with _ | ⟨r0, rtail⟩
        · exact ⟨_, by simp only [pagLoop, hmk]; rfl⟩
        · rcases nx with _ | nu
          · exact ⟨_, by simp only [pagLoop, hmk]; rfl⟩
          · rcases nu with _ | ⟨c0, ntail⟩
            · exact ⟨_, by simp only [pagLoop, hmk]; rfl⟩
            · simp only [pagLoop, hmk, List.isEmpty_cons, if_false,
                Bool.false_eq_true]
              rcases hec : extractCursor (c0 :: ntail) with _ | c
              · exact ⟨_, rfl⟩
              · exact ih _ _ _ _
    · exact ⟨_, by simp only [pagLoop, hmk]; rfl⟩

/-- C3: neither `make_api_request` nor `search_with_pagination` lets an
exception cross its boundary — every failure (including a malformed JSON
body on a 2xx response, which `requests >= 2.27` raises as a
`RequestException` caught by the handlers) comes back as data — and a
2xx response with a well-formed JSON body yields that decoded body. -/
theorem request_and_pagination_never_raise :
    (∀ t retries, ∃ v, make_api_request t retries = .ok v)
    ∧ (∀ st t cursor maxPages retries,
        ∃ v, search_with_pagination st t cursor maxPages retries = .ok v)
    ∧ (∀ t retries s b, 1 ≤ retries → 200 ≤ s → s < 300 →
        t 0 = Transport.response s (.json b) →
        make_api_request t retries = .ok ([], b)) := by
  refine ⟨make_api_request_isOk, ?_, ?_⟩
  · intro st t cursor maxPages retries
    cases hv : validSearchType st with
    | true =>
      simp only [search_with_pagination, hv, if_true]
      exact pagLoop_isOk t retries _ 0 cursor [] 0
    | false =>
      simp only [search_with_pagination, hv, Bool.false_eq_true, if_false]
      exact ⟨_, rfl⟩
  · intro t retries s b h1 h2 h3 h4
    exact make_api_request_2xx t retries s b h1 h2 h3 h4

/-- Witness for C3's conditional part: a 2xx response with body
`{results: [7]}` on the first attempt is returned as a success. -/
theorem request_and_pagination_never_raise_witness :
    make_api_request
        (fun _ => Transport.response 200 (.json ⟨none, some [7], none⟩)) 3 =
      .ok ([], ⟨none, some [7], none⟩) :=
  request_and_pagination_never_raise.2.2
    (fun _ => Transport.response 200 (.json ⟨none, some [7], none⟩)) 3 200
    ⟨none, some [7], none⟩ (by omega) (by omega) (by omega) rfl

/-- The pagination loop issues at most `fuel` further fetches beyond the
`fetchIdx` already issued. -/
theorem pagLoop_fetch_bound (t : PagTransport) (retries : Nat) :
    ∀ fuel fetchIdx cur acc pf,
      ∃ n ret, pagLoop t retries fetchIdx cur acc pf fuel = .ok (n, ret)
        ∧ n ≤ fetchIdx + fuel := by
  intro fuel
  induction fuel with
  | zero =>
    intro fetchIdx cur acc pf
    exact ⟨fetchIdx, finishPag acc pf, rfl, by omega⟩
  | succ f ih =>
    intro fetchIdx cur acc pf
    obtain ⟨⟨sl, body⟩, hmk⟩ :=
      make_api_request_isOk (t fetchIdx (sentCursor cur)) retries
    rcases body with ⟨em, res, nx⟩
    rcases em with _ | e
    · rcases res with _ | rs
      · exact ⟨fetchIdx + 1, finishPag acc pf,
          by simp only [pagLoop, hmk], by omega⟩
      · rcases rs with _ | ⟨r0, rtail⟩
        · exact ⟨fetchIdx + 1, finishPag acc pf,
            by simp only [pagLoop, hmk], by omega⟩
        · rcases nx with _ | nu
          · exact ⟨fetchIdx + 1, finishPag (acc ++ r0 :: rtail) (pf + 1),
              by simp only [pagLoop, hmk], by omega⟩
          · rcases nu with _ | ⟨c0, ntail⟩
            · exact ⟨fetchIdx + 1, finishPag (acc ++ r0 :: rtail) (pf + 1),
                by simp only [pagLoop, hmk]; rfl, by omega⟩
            · rcases hec : extractCursor (c0 :: ntail) with _ | c
              · refine ⟨fetchIdx + 1, finishPag (acc ++ r0 :: rtail) (pf + 1),
                  ?_, by omega⟩
                simp only [pagLoop, hmk, List.isEmpty_cons,
                  Bool.false_eq_true, if_false, hec]
              · obtain ⟨n, ret, hre, hb⟩ :=
                  ih (fetchIdx + 1) c (acc ++ r0 :: rtail) (pf + 1)
                refine ⟨n, ret, ?_, by omega⟩
                simp only [pagLoop, hmk, List.isEmpty_cons,
                  Bool.false_eq_true, if_false, hec]
                exact hre
    · exact ⟨fetchIdx + 1, .apiError e,
        by simp only [pagLoop, hmk], by omega⟩

/-- C6: one call to `search_with_pagination` issues at most
`min(requested, 10)` page fetches — the ceiling `max_pages_int` is
clamped to at most 10 for every input, and for a requested natural
number `m` it is exactly `min m 10` — and against the mock source
returning 3 pages of 1 result each, `maxPages = 2` yields exactly 2
accumulated items and a page count of 2 after 2 fetches. -/
theorem pagination_respects_page_bound :
    (∀ st t cursor maxPages retries,
        ∃ n ret, search_with_pagination st t cursor maxPages retries =
            .ok (n, ret)
          ∧ n ≤ (maxPagesInt maxPages).toNat)
    ∧ (∀ maxPages, (maxPagesInt maxPages).toNat ≤ 10)
    ∧ (∀ m : Nat, (maxPagesInt (.intStr (m : Int))).toNat = min m 10)
    ∧ search_with_pagination "opinions".data scenTransport [] (.intStr 2) 3 =
        .ok (2, .found [10, 20] 2) := by
  refine ⟨?_, ?_, ?_, rfl⟩
  · intro st t cursor maxPages retries
    cases hv : validSearchType st with
    | true =>
      simp only [search_with_pagination, hv, if_true]
      have h := pagLoop_fetch_bound t retries (maxPagesInt maxPages).toNat
        0 cursor [] 0
      simpa using h
    | false =>
      simp only [search_with_pagination, hv, Bool.false_eq_true, if_false]
      exact ⟨0, .invalidType, rfl, by omega⟩
  · intro maxPages
    cases maxPages with
    | intStr m => simp only [maxPagesInt]; omega
    | notInt => simp only [maxPagesInt]; omega
  · intro m
    simp only [maxPagesInt]
    omega

/-- C7: at any point of a pagination run, a fetched response whose body
has no `next` field makes the loop return at once — the fetch count of
the result is `fetchIdx + 1`, i.e. no further `make_api_request` call is
issued — and a response with no results field or an empty result list
likewise terminates the loop with no further fetch (before counting that
page). -/
theorem pagination_halts_without_next (t : PagTransport)
    (retries fuel fetchIdx : Nat) (cur : List Char) (acc : List Nat)
    (pf : Nat) (sl : List Nat) (body : Body)
    (hmk : make_api_request (t fetchIdx (sentCursor cur)) retries =
      .ok (sl, body))
    (herr : body.errorMsg = none) :
    (body.results = none ∨ body.results = some [] →
        pagLoop t retries fetchIdx cur acc pf (fuel + 1) =
          .ok (fetchIdx + 1, finishPag acc pf))
    ∧ (∀ rs, body.results = some rs → rs ≠ [] → body.next = none →
        pagLoop t retries fetchIdx cur acc pf (fuel + 1) =
          .ok (fetchIdx + 1, finishPag (acc ++ rs) (pf + 1))) := by
  rcases body with ⟨em, res, nx⟩
  cases herr
  constructor
  · rintro (h | h) <;> cases h <;> simp only [pagLoop, hmk]
  · rintro rs h hne hnx
    cases h
    cases hnx
    rcases rs with _ | ⟨r0, rtail⟩
    · exact absurd rfl hne
    · simp only [pagLoop, hmk]

/-- Witness for C7: a single page with one result and no `next` yields
exactly one fetch and the accumulated result, whatever fuel remains. -/
theorem pagination_halts_without_next_witness :
    pagLoop (fun _ _ _ => Transport.response 200 (.json ⟨none, some [5], none⟩))
        3 0 [] [] 0 5 = .ok (1, .found [5] 1) := by
  have h := (pagination_halts_without_next
      (fun _ _ _ => Transport.response 200 (.json ⟨none, some [5], none⟩))
      3 4 0 [] [] 0 [] ⟨none, some [5], none⟩ rfl rfl).2 [5] rfl
      (by simp) rfl
  exact h

/-- C10: a fetched response whose `next` field is present but an empty
string terminates pagination exactly as a missing `next` does: the loop
returns the same value `.ok (fetchIdx + 1, finishPag (acc ++ rs)
(pf + 1))` as in the missing-`next` case, issuing no further fetch.
(JSON `null` is read by `result.get('next')` as `None`, identical to an
absent key, and is the missing-`next` case of C7.) -/
theorem pagination_empty_next_terminates (t : PagTransport)
    (retries fuel fetchIdx : Nat) (cur : List Char) (acc : List Nat)
    (pf : Nat) (sl : List Nat) (body : Body) (rs : List Nat)
    (hmk : make_api_request (t fetchIdx (sentCursor cur)) retries =
      .ok (sl, body))
    (herr : body.errorMsg = none) (hres : body.results = some rs)
    (hne : rs ≠ []) (hnx : body.next = some []) :
    pagLoop t retries fetchIdx cur acc pf (fuel + 1) =
      .ok (fetchIdx + 1, finishPag (acc ++ rs) (pf + 1)) := by
  rcases body with ⟨em, res, nx⟩
  cases herr
  cases hres
  cases hnx
  rcases rs with _ | ⟨r0, rtail⟩
  · exact absurd rfl hne
  · simp only [pagLoop, hmk]
    rfl

/-- Witness for C10: one page with one result and `next = ""` gives one
fetch and the accumulated result. -/
theorem pagination_empty_next_terminates_witness :
    pagLoop (fun _ _ _ => Transport.response 200 (.json ⟨none, some [5], some []⟩))
        3 0 [] [] 0 5 = .ok (1, .found [5] 1) := by
  have h := pagination_empty_next_terminates
      (fun _ _ _ => Transport.response 200 (.json ⟨none, some [5], some []⟩))
      3 4 0 [] [] 0 [] ⟨none, some [5], some []⟩ [5] rfl rfl rfl
      (by simp) rfl
  exact h

/-- C4 counterexample: with tool calls `a` (well-formed), `b` (malformed
argument string), `c` (well-formed), the parse loop of `call_llm` raises
`json.JSONDecodeError` at `b` — no list of calls is returned at all, so
the remaining call `c` is neither parsed nor invoked, contradicting the
claim that the loop continues with the remaining calls. -/
theorem call_llm_parse_failure_cex :
    call_llm [⟨"a", .decodes [("q", "1")]⟩, ⟨"b", .fails⟩,
        ⟨"c", .decodes []⟩] = .error .jsonDecodeError := rfl

/-- C4 amended: a tool call whose argument string fails JSON parsing
aborts the whole dispatch cycle: whatever well-formed calls precede it
and whatever calls follow it, `call_llm` raises (returns `.error`), so
no call list is produced and no call is invoked.  The right-hand side
does not depend on `rest`: the remaining calls are never examined. -/
theorem call_llm_parse_failure_aborts (pre rest : List ToolCall)
    (nm : String) (hpre : ∀ c ∈ pre, parsesOk c = true) :
    call_llm (pre ++ ⟨nm, .fails⟩ :: rest) = .error .jsonDecodeError := by
  induction pre with
  | nil => rfl
  | cons c cs ih =>
    have hc := hpre c (List.mem_cons_self c cs)
    have hcs : ∀ x ∈ cs, parsesOk x = true := fun x hx =>
      hpre x (List.mem_cons_of_mem c hx)
    rcases harg : c.arguments with args | _
    · simp only [List.cons_append, call_llm, harg, json_loads,
        List.append_eq, ih hcs]
    · rw [parsesOk, harg] at hc
      simp at hc

/-- Witness for C4's amended theorem at a concrete call list. -/
theorem call_llm_parse_failure_aborts_witness :
    call_llm ([⟨"a", ArgPayload.decodes []⟩] ++
        ⟨"b", ArgPayload.fails⟩ :: [⟨"c", ArgPayload.decodes []⟩]) =
      .error .jsonDecodeError :=
  call_llm_parse_failure_aborts [⟨"a", ArgPayload.decodes []⟩]
    [⟨"c", ArgPayload.decodes []⟩] "b" (by decide)

/-- C5 counterexample: a descriptor whose `name` and `description`
attributes are present but empty strings is converted (not rejected) and
survives the filtering into the schema list, contradicting the claim
that empty name or description leads to rejection. -/
theorem convert_empty_name_accepted_cex :
    convert_to_llm_tool ⟨true, some "", some "", none⟩ =
      some ⟨"function", "", "", "object", []⟩
    ∧ [(⟨true, some "", some "", none⟩ : PyTool)].filterMap
        convert_to_llm_tool = [⟨"function", "", "", "object", []⟩] :=
  ⟨rfl, rfl⟩

/-- C5 amended: `convert_to_llm_tool` rejects exactly the descriptors
that are falsy or lack a `name` or `description` attribute (emptiness of
the strings is not checked), and a truthy descriptor with both
attributes and no input schema yields a schema whose
`parameters.properties` is the empty object, never null. -/
theorem convert_rejects_only_missing_attributes :
    (∀ tool : PyTool,
        convert_to_llm_tool tool = none ↔
          tool.isTruthy = false ∨ tool.name = none ∨
            tool.description = none)
    ∧ (∀ n d : String,
        convert_to_llm_tool ⟨true, some n, some d, none⟩ =
          some ⟨"function", n, d, "object", []⟩) := by
  constructor
  · intro tool
    rcases tool with ⟨tr, nm, ds, sch⟩
    cases tr <;> rcases nm with _ | n <;> rcases ds with _ | d <;>
      simp [convert_to_llm_tool]
  · intro n d
    rfl

/-- C9: when the converted-and-filtered schema list is empty, the
dispatch cycle aborts before any model contact — the outcome is
`abortedNoTools` and is the same for every model oracle, i.e. the model
is never consulted — and conversely every dispatched outcome carries a
nonempty schema list: the model is never contacted with an empty one. -/
theorem run_aborts_on_empty_schemas (tools : List PyTool)
    (model othermodel : List ToolSchema → List ToolCall) :
    (tools.filterMap convert_to_llm_tool = [] →
        run_dispatch tools model = .abortedNoTools
        ∧ run_dispatch tools model = run_dispatch tools othermodel)
    ∧ (∀ fs p, run_dispatch tools model = .dispatched fs p → fs ≠ []) := by
  constructor
  · intro h
    constructor <;> simp [run_dispatch, h]
  · intro fs p hd hfs
    simp only [run_dispatch] at hd
    cases he : (tools.filterMap convert_to_llm_tool).isEmpty with
    | true => rw [he] at hd; simp at hd
    | false =>
      rw [he] at hd
      simp only [Bool.false_eq_true, if_false, RunOutcome.dispatched.injEq]
        at hd
      rw [← hd.1] at hfs
      rw [hfs] at he
      simp at he

/-- Witness for C9: a tool list whose single descriptor lacks a `name`
attribute converts to nothing, and the cycle aborts. -/
theorem run_aborts_on_empty_schemas_witness :
    run_dispatch [⟨true, none, some "d", none⟩] (fun _ => []) =
      .abortedNoTools :=
  ((run_aborts_on_empty_schemas [⟨true, none, some "d", none⟩]
    (fun _ => []) (fun _ => [])).1 rfl).1

/-- A pattern is always found at the front of itself plus anything. -/
theorem leadsWith_append_self : ∀ pat t : List Char,
    leadsWith pat (pat ++ t) = true := by
  intro pat t
  induction pat with
  | nil => rfl
  | cons a as ih => simp [leadsWith, ih]

/-- No occurrence of `pat` means nothing to chop at. -/
theorem chop_of_not_contains : ∀ pat s : List Char,
    containsSeq pat s = false → chop pat s = none := by
  intro pat s
  induction s with
  | nil =>
    intro h
    simp only [containsSeq] at h
    simp [chop, h]
  | cons c rest ih =>
    intro h
    simp only [containsSeq, Bool.or_eq_false_iff] at h
    simp [chop, h.1, ih h.2]

/-- Chopping at a marked occurrence: when no occurrence of the pattern
starts inside `p`, the chop of `p ++ pat ++ t` lands exactly at the
marked `pat`. -/
theorem chop_marker : ∀ (a : Char) (as p t : List Char),
    (∀ i, i < p.length →
      leadsWith (a :: as) (p.drop i ++ (a :: as) ++ t) = false) →
    chop (a :: as) (p ++ (a :: as) ++ t) = some (p, t) := by
  intro a as p
  induction p with
  | nil =>
    intro t _
    have hl : leadsWith (a :: as) (a :: (as ++ t)) = true :=
      leadsWith_append_self (a :: as) t
    show chop (a :: as) (a :: (as ++ t)) = some ([], t)
    simp only [chop]
    rw [if_pos hl]
    show some ([], ((a :: as) ++ t).drop (a :: as).length) = some ([], t)
    rw [List.drop_left]
  | cons c ps ih =>
    intro t H
    have h0 : leadsWith (a :: as) (c :: (ps ++ (a :: as) ++ t)) = false :=
      H 0 (by simp)
    have Hs : ∀ i, i < ps.length →
        leadsWith (a :: as) (ps.drop i ++ (a :: as) ++ t) = false := by
      intro i hi
      have := H (i + 1) (by simp; omega)
      simpa using this
    have ihx := ih t Hs
    show chop (a :: as) (c :: (ps ++ (a :: as) ++ t)) = some (c :: ps, t)
    simp only [chop]
    rw [if_neg (by simp only [Bool.not_eq_true]; exact h0), ihx]

/-- The marked occurrence makes containment true. -/
theorem containsSeq_marker : ∀ (a : Char) (as p t : List Char),
    containsSeq (a :: as) (p ++ (a :: as) ++ t) = true := by
  intro a as p
  induction p with
  | nil =>
    intro t
    have hl : leadsWith (a :: as) (a :: (as ++ t)) = true :=
      leadsWith_append_self (a :: as) t
    show containsSeq (a :: as) (a :: (as ++ t)) = true
    simp only [containsSeq]
    simp [hl]
  | cons c ps ih =>
    intro t
    show containsSeq (a :: as) (c :: (ps ++ (a :: as) ++ t)) = true
    simp only [containsSeq, Bool.or_eq_true]
    exact Or.inr (ih t)

/-- A string without the pattern splits into one piece, whatever the
fuel. -/
theorem pySplitF_chop_none (pat : List Char) (fuel : Nat) (s : List Char)
    (h : chop pat s = none) : pySplitF pat fuel s = [s] := by
  cases fuel with
  | zero => rfl
  | succ f => simp only [pySplitF, h]

/-- Splitting `p ++ pat ++ t` at the single marked occurrence gives
exactly `[p, t]`. -/
theorem pySplit_marker (a : Char) (as p t : List Char)
    (H : ∀ i, i < p.length →
      leadsWith (a :: as) (p.drop i ++ (a :: as) ++ t) = false)
    (Ht : containsSeq (a :: as) t = false) :
    pySplit (a :: as) (p ++ (a :: as) ++ t) = [p, t] := by
  unfold pySplit
  simp only [pySplitF, chop_marker a as p t H]
  rw [pySplitF_chop_none (a :: as) _ t (chop_of_not_contains (a :: as) t Ht)]

/-- Without an `'&'` to chop at, `upToAmp` keeps the whole string. -/
theorem upToAmp_chop_none : ∀ t : List Char,
    chop ['&'] t = none → upToAmp t = t := by
  intro t
  induction t with
  | nil => intro _; rfl
  | cons c rest ih =>
    intro h
    by_cases hc : c = '&'
    · subst hc
      simp [chop, leadsWith] at h
    · have hne : ('&' : Char) ≠ c := fun h' => hc h'.symm
      have hlw : leadsWith ['&'] (c :: rest) = false := by
        simp [leadsWith, hne]
      simp only [chop, hlw, Bool.false_eq_true, if_false] at h
      rcases hcr : chop ['&'] rest with _ | ⟨pre, post⟩
      · rw [hcr] at h
        simp [upToAmp, hc, ih hcr]
      · rw [hcr] at h
        simp at h

/-- A chop at the first `'&'` returns exactly the `upToAmp` piece. -/
theorem upToAmp_chop_some : ∀ t pre post : List Char,
    chop ['&'] t = some (pre, post) → upToAmp t = pre := by
  intro t
  induction t with
  | nil =>
    intro pre post h
    simp [chop, leadsWith] at h
  | cons c rest ih =>
    intro pre post h
    by_cases hc : c = '&'
    · subst hc
      have hlw : leadsWith ['&'] ('&' :: rest) = true := by
        simp [leadsWith]
      simp only [chop, hlw, if_true, Option.some.injEq, Prod.mk.injEq] at h
      rw [← h.1]
      simp [upToAmp]
    · have hne : ('&' : Char) ≠ c := fun h' => hc h'.symm
      have hlw : leadsWith ['&'] (c :: rest) = false := by
        simp [leadsWith, hne]
      simp only [chop, hlw, Bool.false_eq_true, if_false] at h
      rcases hcr : chop ['&'] rest with _ | ⟨pre', post'⟩
      · rw [hcr] at h
        simp at h
      · rw [hcr] at h
        simp only [Option.some.injEq, Prod.mk.injEq] at h
        rw [← h.1]
        simp [upToAmp, hc, ih pre' post' hcr]

/-- The head of a Python split at `'&'` is everything before the first
`'&'`. -/
theorem pySplit_amp_head : ∀ t : List Char,
    (pySplit ['&'] t).getD 0 [] = upToAmp t := by
  intro t
  rcases h : chop ['&'] t with _ | ⟨pre, post⟩
  · unfold pySplit
    simp only [pySplitF, h]
    rw [upToAmp_chop_none t h]
    rfl
  · unfold pySplit
    simp only [pySplitF, h]
    rw [upToAmp_chop_some t pre post h]
    rfl

/-- The part after the single marked occurrence is exactly `t`. -/
theorem afterSeq_marker : ∀ (a : Char) (as p t : List Char),
    (∀ i, i < p.length →
      leadsWith (a :: as) (p.drop i ++ (a :: as) ++ t) = false) →
    afterSeq (a :: as) (p ++ (a :: as) ++ t) = t := by
  intro a as p
  induction p with
  | nil =>
    intro t _
    have hl : leadsWith (a :: as) (a :: (as ++ t)) = true :=
      leadsWith_append_self (a :: as) t
    show afterSeq (a :: as) (a :: (as ++ t)) = t
    simp only [afterSeq]
    rw [if_pos hl]
    show ((a :: as) ++ t).drop (a :: as).length = t
    rw [List.drop_left]
  | cons c ps ih =>
    intro t H
    have h0 : leadsWith (a :: as) (c :: (ps ++ (a :: as) ++ t)) = false :=
      H 0 (by simp)
    have Hs : ∀ i, i < ps.length →
        leadsWith (a :: as) (ps.drop i ++ (a :: as) ++ t) = false := by
      intro i hi
      have := H (i + 1) (by simp; omega)
      simpa using this
    have ihx := ih t Hs
    show afterSeq (a :: as) (c :: (ps ++ (a :: as) ++ t)) = t
    simp only [afterSeq]
    rw [if_neg (by simp only [Bool.not_eq_true]; exact h0), ihx]

/-- C8 counterexample: for `next = "?cursor=acursor=b&z"` the substring
between `'cursor='` and the next `'&'` is `"acursor=b"` (the spec-side
definition `specCursor`), but the code's
`split('cursor=')[1].split('&')[0]` truncates at the second occurrence
of `'cursor='` and extracts `"a"`: the claim's characterisation fails on
`next` URLs in which `'cursor='` recurs before the next `'&'`. -/
theorem cursor_extraction_cex :
    extractCursor "?cursor=acursor=b&z".data = some "a".data
    ∧ specCursor "?cursor=acursor=b&z".data = some "acursor=b".data
    ∧ ("a".data : List Char) ≠ "acursor=b".data :=
  ⟨rfl, rfl, by decide⟩

/-- C8 amended: when `'cursor='` occurs exactly once in the `next` URL —
written `p ++ cursorPat ++ t` with no occurrence starting inside `p` and
none in `t` — the extracted cursor is exactly the substring between
`'cursor='` and the next `'&'` (or the end of the string when no `'&'`
follows), and agrees with the spec-side `specCursor`; on the spec's two
examples the extraction gives `abc123` and `xyz`; a `next` URL without
`'cursor='` extracts nothing, and a fetched page carrying such a `next`
terminates pagination with no further fetch. -/
theorem cursor_extraction_amended :
    (∀ p t : List Char,
        (∀ i, i < p.length →
          leadsWith cursorPat (p.drop i ++ cursorPat ++ t) = false) →
        containsSeq cursorPat t = false →
        extractCursor (p ++ cursorPat ++ t) = some (upToAmp t)
        ∧ extractCursor (p ++ cursorPat ++ t) =
            specCursor (p ++ cursorPat ++ t))
    ∧ extractCursor "...?cursor=abc123&foo=bar".data = some "abc123".data
    ∧ extractCursor "...?cursor=xyz".data = some "xyz".data
    ∧ (∀ nu, containsSeq cursorPat nu = false → extractCursor nu = none)
    ∧ (∀ (t : PagTransport) (retries fuel fetchIdx : Nat)
        (cur : List Char) (acc : List Nat) (pf : Nat) (sl : List Nat)
        (body : Body) (rs : List Nat) (nu : List Char),
        make_api_request (t fetchIdx (sentCursor cur)) retries =
          .ok (sl, body) →
        body.errorMsg = none → body.results = some rs → rs ≠ [] →
        body.next = some nu → containsSeq cursorPat nu = false →
        pagLoop t retries fetchIdx cur acc pf (fuel + 1) =
          .ok (fetchIdx + 1, finishPag (acc ++ rs) (pf + 1))) := by
  refine ⟨?_, rfl, rfl, ?_, ?_⟩
  · intro p t H Ht
    have hsplit : pySplit cursorPat (p ++ cursorPat ++ t) = [p, t] :=
      pySplit_marker 'c' ['u', 'r', 's', 'o', 'r', '='] p t H Ht
    have hcont : containsSeq cursorPat (p ++ cursorPat ++ t) = true :=
      containsSeq_marker 'c' ['u', 'r', 's', 'o', 'r', '='] p t
    have hafter : afterSeq cursorPat (p ++ cursorPat ++ t) = t :=
      afterSeq_marker 'c' ['u', 'r', 's', 'o', 'r', '='] p t H
    constructor
    · rw [extractCursor, if_pos hcont, hsplit]
      rw [show ([p, t].getD 1 ([] : List Char)) = t from rfl]
      rw [pySplit_amp_head t]
    · rw [extractCursor, specCursor, if_pos hcont, if_pos hcont, hsplit,
        hafter]
      rw [show ([p, t].getD 1 ([] : List Char)) = t from rfl]
      rw [pySplit_amp_head t]
  · intro nu h
    simp [extractCursor, h]
  · intro t retries fuel fetchIdx cur acc pf sl body rs nu hmk herr hres
      hne hnx hnocur
    have hec : extractCursor nu = none := by simp [extractCursor, hnocur]
    rcases body with ⟨em, res, nx⟩
    cases herr
    cases hres
    cases hnx
    rcases rs with _ | ⟨r0, rtail⟩
    · exact absurd rfl hne
    · rcases nu with _ | ⟨c0, ntail⟩
      · simp only [pagLoop, hmk]
        rfl
      · simp only [pagLoop, hmk, List.isEmpty_cons, Bool.false_eq_true,
          if_false, hec]

/-- Witness for C8's amended theorem on the spec's first example, with
the single occurrence marked as `"...?" ++ "cursor=" ++
"abc123&foo=bar"`. -/
theorem cursor_extraction_amended_witness :
    extractCursor ("...?".data ++ cursorPat ++ "abc123&foo=bar".data) =
      some "abc123".data :=
  (cursor_extraction_amended.1 "...?".data "abc123&foo=bar".data
    (by decide) (by decide)).1
